import Mathlib

/-!
Verification development for the tax-form stock extraction program
(`tax_form/main.py`).  The Python source is shallowly embedded: text is
modelled as `List Char`, Python `float` values as exact rationals `ℚ`,
Python exceptions as `Except`, and each extraction / aggregation function
of the source is translated into a computable Lean definition keeping the
source's name where possible.
-/

namespace TaxForm

attribute [local semireducible] Rat.mul Rat.add Rat.sub Rat.inv

/-- Text is modelled as a list of characters (one Python `str`). -/
abbrev Str := List Char

/-- Whitespace characters recognised by Python's `str.strip` / `str.split`
(ASCII subset actually occurring in extracted PDF text). -/
def isSpaceChar (c : Char) : Bool :=
  c = ' ' || c = '\t' || c = '\n' || c = '\r' || c = '\x0b' || c = '\x0c'

/-- Python `str.strip()`: drop leading and trailing whitespace. -/
def pyStrip (l : Str) : Str :=
  ((l.dropWhile isSpaceChar).reverse.dropWhile isSpaceChar).reverse

/-- Accumulator-based splitter for Python's no-argument `str.split()`:
runs of whitespace separate tokens, empty tokens are not produced. -/
def tokensAux (cur : Str) : Str → List Str
  | [] => if cur.isEmpty then [] else [cur.reverse]
  | c :: rest =>
    if isSpaceChar c then
      if cur.isEmpty then tokensAux [] rest else cur.reverse :: tokensAux [] rest
    else tokensAux (c :: cur) rest

/-- Python `line.split()` (no separator argument). -/
def tokens (l : Str) : List Str := tokensAux [] l

/-- Accumulator-based splitter for Python's `str.split(sep)` with a
one-character separator: empty pieces are kept. -/
def splitOnCharAux (sep : Char) (cur : Str) : Str → List Str
  | [] => [cur.reverse]
  | c :: rest =>
    if c = sep then cur.reverse :: splitOnCharAux sep [] rest
    else splitOnCharAux sep (c :: cur) rest

/-- Python `str.split(sep)` for a one-character separator. -/
def splitOnChar (sep : Char) (l : Str) : List Str := splitOnCharAux sep [] l

/-- Python `text.split("\n")`. -/
def splitLines (l : Str) : List Str := splitOnChar '\n' l

/-- Python `str.startswith`, first argument is the candidate head. -/
def startsWith : Str → Str → Bool
  | [], _ => true
  | _ :: _, [] => false
  | p :: ps, c :: cs => p = c && startsWith ps cs

/-- Python substring test `needle in hay`. -/
def containsSub (needle : Str) : Str → Bool
  | [] => startsWith needle []
  | c :: rest => startsWith needle (c :: rest) || containsSub needle rest

/-- Python `str.replace(x, "")` for a one-character pattern. -/
def removeChar (x : Char) (l : Str) : Str := l.filter (fun c => c ≠ x)

/-- Python `str.isdigit()` (ASCII digits): nonempty and all digits. -/
def isDigitStr (l : Str) : Bool := !l.isEmpty && l.all Char.isDigit

/-- Python `str.isalnum()` (ASCII subset): nonempty and all alphanumeric. -/
def isAlnumStr (l : Str) : Bool := !l.isEmpty && l.all Char.isAlphanum

/-- Numeric value of a digit string, most significant digit first. -/
def digitsToNat (l : Str) : ℕ :=
  l.foldl (fun acc c => acc * 10 + (c.toNat - '0'.toNat)) 0

/-- Exponent suffix of a Python float literal after `e`/`E`: optional sign
followed by at least one digit; yields the scale factor as a rational. -/
def parseExpDigits : Str → Option ℚ
  | '+' :: ds => if isDigitStr ds then some ((10 : ℚ) ^ digitsToNat ds) else none
  | '-' :: ds => if isDigitStr ds then some (((10 : ℚ) ^ digitsToNat ds)⁻¹) else none
  | ds => if isDigitStr ds then some ((10 : ℚ) ^ digitsToNat ds) else none

/-- Optional exponent part of a Python float literal; `some 1` when absent. -/
def parseExponent : Str → Option ℚ
  | [] => some 1
  | 'e' :: rest => parseExpDigits rest
  | 'E' :: rest => parseExpDigits rest
  | _ => none

/-- Value of an integer-part / fraction-part digit pair as a rational. -/
def mantissaVal (ip fp : Str) : ℚ :=
  (digitsToNat ip : ℚ) + (digitsToNat fp : ℚ) / (10 : ℚ) ^ fp.length

/-- Unsigned body of a Python float literal: digits with an optional dot
and fractional digits (at least one digit overall), then an optional
exponent; the whole input must be consumed. -/
def parseUnsignedFloat (t : Str) : Option ℚ :=
  let intPart := t.takeWhile Char.isDigit
  let rest1 := t.dropWhile Char.isDigit
  match rest1 with
  | '.' :: rest2 =>
    let fracPart := rest2.takeWhile Char.isDigit
    let rest3 := rest2.dropWhile Char.isDigit
    if intPart.isEmpty && fracPart.isEmpty then none
    else (parseExponent rest3).map (fun e => mantissaVal intPart fracPart * e)
  | _ =>
    if intPart.isEmpty then none
    else (parseExponent rest1).map (fun e => (digitsToNat intPart : ℚ) * e)

/-- Python `float(s)` on a string, modelled over exact rationals: optional
surrounding whitespace, optional sign, decimal mantissa, optional decimal
exponent.  The IEEE-754 rounding, `inf`/`nan` spellings and digit-group
underscores of Python floats are outside the model, which treats float
arithmetic as exact rational arithmetic throughout. -/
def parsePyFloat (s : Str) : Option ℚ :=
  match pyStrip s with
  | '+' :: rest => parseUnsignedFloat rest
  | '-' :: rest => (parseUnsignedFloat rest).map Neg.neg
  | t => parseUnsignedFloat t

/-- One sale transaction record, the dictionary
`{"Date sold or transferred": ..., "Quantity": ...}` built by
`extract_transactions_from_text`.  The record always carries both keys, so
the dictionary is embedded as a two-field structure and the `dict.get`
defaults of the source are unreachable. -/
structure SaleRecord where
  dateSold : Str
  quantity : Str
deriving DecidableEq, Repr

/-- One vested-stock record, the dictionary
`{"Vest Date": ..., "Shares": ...}` built by
`extract_vested_stocks_from_text`. -/
structure VestedRecord where
  vestDate : Str
  shares : Str
deriving DecidableEq, Repr

/-- One ESPP record, the dictionary
`{"Off Period": ..., "Purchased Shares": ...}` built by
`extract_espp_from_text`. -/
structure EsppRecord where
  offPeriod : Str
  purchasedShares : Str
deriving DecidableEq, Repr

/-- Python dict update `d[k] += q` / `d[k] = q` on an insertion-ordered
dictionary: an existing key keeps its position, a new key is appended. -/
def updateDict (d : List (Str × ℚ)) (k : Str) (q : ℚ) : List (Str × ℚ) :=
  match d with
  | [] => [(k, q)]
  | (k0, q0) :: rest =>
    if k0 = k then (k0, q0 + q) :: rest else (k0, q0) :: updateDict rest k q

/-- Loop body of `aggregate_by_date`: parse each record's quantity with
`float`; on failure `continue` (the record is dropped), on success add the
quantity to the running total for the record's date. -/
def aggregateAux (acc : List (Str × ℚ)) : List SaleRecord → List (Str × ℚ)
  | [] => acc
  | r :: rs =>
    match parsePyFloat r.quantity with
    | none => aggregateAux acc rs
    | some q => aggregateAux (updateDict acc r.dateSold q) rs

/-- `aggregate_by_date` from `main.py`: sum quantities per date, dropping
records whose quantity string does not parse as a float. -/
def aggregate_by_date (data : List SaleRecord) : List (Str × ℚ) :=
  aggregateAux [] data

/-- Sum of the quantity values of an aggregated dictionary. -/
def sumValues (d : List (Str × ℚ)) : ℚ := (d.map Prod.snd).sum

/-- Sum of the successfully parsed quantities of a record list. -/
def parsedQuantitySum (data : List SaleRecord) : ℚ :=
  (data.filterMap (fun r => parsePyFloat r.quantity)).sum

theorem sumValues_nil : sumValues [] = 0 := rfl

theorem sumValues_cons (p : Str × ℚ) (d : List (Str × ℚ)) :
    sumValues (p :: d) = p.2 + sumValues d := by
  simp [sumValues]

theorem sumValues_updateDict (d : List (Str × ℚ)) (k : Str) (q : ℚ) :
    sumValues (updateDict d k q) = sumValues d + q := by
  induction d with
  | nil => simp [updateDict, sumValues]
  | cons p rest ih =>
    obtain ⟨k0, q0⟩ := p
    by_cases h : k0 = k
    · simp [updateDict, h, sumValues_cons]
      ring
    · simp [updateDict, h, sumValues_cons, ih]
      ring

theorem aggregateAux_mass (rs : List SaleRecord) :
    ∀ acc, sumValues (aggregateAux acc rs) = sumValues acc + parsedQuantitySum rs := by
  induction rs with
  | nil =>
    intro acc
    simp [aggregateAux, parsedQuantitySum]
  | cons r rs ih =>
    intro acc
    cases h : parsePyFloat r.quantity with
    | none =>
      simp [aggregateAux, h, ih, parsedQuantitySum, List.filterMap_cons]
    | some q =>
      simp [aggregateAux, h, ih, sumValues_updateDict, parsedQuantitySum,
        List.filterMap_cons]
      ring

/-- Claim C1: for every list of sale records, the sum of all quantities in
the mapping returned by `aggregate_by_date` equals the sum of the quantity
values of exactly those records whose quantity string parses as a number;
records with unparseable quantities are dropped, contributing nothing. -/
theorem aggregate_by_date_mass_conservation (data : List SaleRecord) :
    sumValues (aggregate_by_date data) = parsedQuantitySum data := by
  simpa [aggregate_by_date, sumValues] using aggregateAux_mass data []

/-- Word character of the regex class `\w` (ASCII subset). -/
def isWordChar (c : Char) : Bool := c.isAlphanum || c = '_'

/-- Match `\w{3}-\d{2}-\d{4}` at the start of the input, returning the
matched eleven characters and the remaining input. -/
def matchWord3Date : Str → Option (Str × Str)
  | a :: b :: c :: '-' :: d1 :: d2 :: '-' :: y1 :: y2 :: y3 :: y4 :: rest =>
    if isWordChar a && isWordChar b && isWordChar c && d1.isDigit && d2.isDigit
        && y1.isDigit && y2.isDigit && y3.isDigit && y4.isDigit then
      some ([a, b, c, '-', d1, d2, '-', y1, y2, y3, y4], rest)
    else none
  | _ => none

/-- Match `\s+` at the start of the input (greedy; in the transaction
pattern every class following `\s+` is disjoint from whitespace, so the
greedy match is exact). -/
def matchSpaces1 : Str → Option Str
  | [] => none
  | c :: rest =>
    if isSpaceChar c then some (rest.dropWhile isSpaceChar) else none

/-- Match `[\d.]+` at the start of the input (greedy; the following `\s`
class is disjoint, so the greedy match is exact). -/
def matchQuantity (l : Str) : Option (Str × Str) :=
  let q := l.takeWhile (fun c => c.isDigit || c = '.')
  if q.isEmpty then none
  else some (q, l.dropWhile (fun c => c.isDigit || c = '.'))

/-- Match `\$[\d,.]+` at the start of the input. -/
def matchMoney : Str → Option Unit
  | '$' :: rest =>
    if (rest.takeWhile (fun c => c.isDigit || c = ',' || c = '.')).isEmpty then none
    else some ()
  | _ => none

/-- Attempt the full transaction pattern
`(\w{3}-\d{2}-\d{4})\s+(\w{3}-\d{2}-\d{4})\s+([\d.]+)\s+\$[\d,.]+`
anchored at the start of the input; on success return groups 1 and 3
(sale date and quantity).  Adjacent character classes of the pattern are
pairwise disjoint, so this deterministic matcher agrees with the
backtracking regex engine on this pattern. -/
def matchSaleAt (l : Str) : Option (Str × Str) :=
  match matchWord3Date l with
  | none => none
  | some (d1, r1) =>
    match matchSpaces1 r1 with
    | none => none
    | some r2 =>
      match matchWord3Date r2 with
      | none => none
      | some (_, r3) =>
        match matchSpaces1 r3 with
        | none => none
        | some r4 =>
          match matchQuantity r4 with
          | none => none
          | some (q, r5) =>
            match matchSpaces1 r5 with
            | none => none
            | some r6 =>
              match matchMoney r6 with
              | none => none
              | some _ => some (d1, q)

/-- Python `re.search` with the transaction pattern: try every start
position from left to right. -/
def searchSale : Str → Option (Str × Str)
  | [] => none
  | c :: rest =>
    match matchSaleAt (c :: rest) with
    | some r => some r
    | none => searchSale rest

/-- Record produced from one text line by the loop body of
`extract_transactions_from_text` (groups 1 and 3 of the regex match). -/
def saleLineRecord (l : Str) : Option SaleRecord :=
  (searchSale l).map (fun p => ⟨p.1, p.2⟩)

/-- Line-sequence form of `extract_transactions_from_text`. -/
def extractTransactionLines (lines : List Str) : List SaleRecord :=
  lines.filterMap saleLineRecord

/-- `extract_transactions_from_text` from `main.py`: split the text into
lines and collect the regex-matched transaction records. -/
def extract_transactions_from_text (text : Str) : List SaleRecord :=
  extractTransactionLines (splitLines text)

/-- Start marker of the vested-stocks section:
`"Vested Stocks" in line and "2024" in line`. -/
def isVestedMarker (l : Str) : Bool :=
  containsSub ("Vested Stocks".data) l && containsSub ("2024".data) l

/-- Header-line test of the vested-stocks section:
`("Award" in line and "Date" in line) or ("Date Date Price" in line)`. -/
def isVestedHeader (l : Str) : Bool :=
  (containsSub ("Award".data) l && containsSub ("Date".data) l)
    || containsSub ("Date Date Price".data) l

/-- Totals-line test of the vested-stocks section:
`line.strip().replace(".", "").replace("'", "").replace(" ", "").isdigit()`.
Note that commas are not removed. -/
def isTotalLine (l : Str) : Bool :=
  isDigitStr (removeChar ' ' (removeChar '\'' (removeChar '.' (pyStrip l))))

/-- Data-row extraction of the vested-stocks section: at least six
whitespace tokens, vest date at index 2 and shares at index 5, and the
vest date must contain a dot and split into exactly three dot-separated
parts. -/
def vestedRowRecord (l : Str) : Option VestedRecord :=
  let parts := tokens l
  if h : 6 ≤ parts.length then
    let vd := parts.get ⟨2, by omega⟩
    let sh := parts.get ⟨5, by omega⟩
    if containsSub ['.'] vd && (splitOnChar '.' vd).length = 3 then
      some ⟨vd, sh⟩
    else none
  else none

/-- Line loop of `extract_vested_stocks_from_text`: the Boolean argument
is the `in_vested_section` flag; a line containing `"ESPP"` executes
`break`, modelled by returning the empty remainder.  The
`header_line_count` diagnostic counter of the source has no observable
effect and is omitted. -/
def vestedScan : Bool → List Str → List VestedRecord
  | _, [] => []
  | inV, l :: ls =>
    if isVestedMarker l then vestedScan true ls
    else if containsSub ("ESPP".data) l then []
    else if inV && !(pyStrip l).isEmpty then
      if isVestedHeader l then vestedScan inV ls
      else if isTotalLine l then vestedScan inV ls
      else
        match vestedRowRecord l with
        | some r => r :: vestedScan inV ls
        | none => vestedScan inV ls
    else vestedScan inV ls

/-- `extract_vested_stocks_from_text` from `main.py`. -/
def extract_vested_stocks_from_text (text : Str) : List VestedRecord :=
  vestedScan false (splitLines text)

/-- Start marker of the ESPP section. -/
def isEsppMarker (l : Str) : Bool :=
  containsSub ("ESPP (Employee Stock Purchase Plan)".data) l

/-- Terminator test of the ESPP section:
`"Total amount" in line or "Page" in line`. -/
def isEsppEnd (l : Str) : Bool :=
  containsSub ("Total amount".data) l || containsSub ("Page".data) l

/-- Header-line test of the ESPP section. -/
def isEsppHeader (l : Str) : Bool :=
  (containsSub ("Off Period".data) l && containsSub ("Purchased".data) l)
    || containsSub ("Shares Price".data) l

/-- Data-row extraction of the ESPP section: at least two whitespace
tokens, off period at index 0 and purchased shares at index 1, validated
by `off_period.isdigit() or (off_period.isalnum() and
purchased_shares.replace(".", "").isdigit())`. -/
def esppRowRecord (l : Str) : Option EsppRecord :=
  let parts := tokens l
  if h : 2 ≤ parts.length then
    let op := parts.get ⟨0, by omega⟩
    let ps := parts.get ⟨1, by omega⟩
    if isDigitStr op || (isAlnumStr op && isDigitStr (removeChar '.' ps)) then
      some ⟨op, ps⟩
    else none
  else none

/-- Line loop of `extract_espp_from_text`: the Boolean argument is the
`in_espp_section` flag; a terminator line inside the section executes
`break`. -/
def esppScan : Bool → List Str → List EsppRecord
  | _, [] => []
  | inE, l :: ls =>
    if isEsppMarker l then esppScan true ls
    else if inE && isEsppEnd l then []
    else if inE && !(pyStrip l).isEmpty then
      if isEsppHeader l then esppScan inE ls
      else if startsWith ("CHF".data) (pyStrip l) then esppScan inE ls
      else
        match esppRowRecord l with
        | some r => r :: esppScan inE ls
        | none => esppScan inE ls
    else esppScan inE ls

/-- `extract_espp_from_text` from `main.py`. -/
def extract_espp_from_text (text : Str) : List EsppRecord :=
  esppScan false (splitLines text)

/-- Month number of an abbreviated month name, case-insensitively, as
matched by the `%b` directive of `datetime.strptime`. -/
def monthNum (m : Str) : Option ℕ :=
  match m.map Char.toLower with
  | ['j', 'a', 'n'] => some 1
  | ['f', 'e', 'b'] => some 2
  | ['m', 'a', 'r'] => some 3
  | ['a', 'p', 'r'] => some 4
  | ['m', 'a', 'y'] => some 5
  | ['j', 'u', 'n'] => some 6
  | ['j', 'u', 'l'] => some 7
  | ['a', 'u', 'g'] => some 8
  | ['s', 'e', 'p'] => some 9
  | ['o', 'c', 't'] => some 10
  | ['n', 'o', 'v'] => some 11
  | ['d', 'e', 'c'] => some 12
  | _ => none

/-- Gregorian leap-year test. -/
def isLeapYear (y : ℕ) : Bool := (y % 4 = 0 && y % 100 ≠ 0) || y % 400 = 0

/-- Days in a month of a given year. -/
def daysInMonth (m y : ℕ) : ℕ :=
  if m = 2 then (if isLeapYear y then 29 else 28)
  else if m = 4 || m = 6 || m = 9 || m = 11 then 30
  else 31

/-- `datetime.strptime(s, "%b-%d-%Y")` of the display code, modelled from
the collaborating standard library: abbreviated month name, one or two
day digits within the month's calendar range, one to four year digits
with year at least one.  Returns `(year, month, day)`. -/
def parseDateMDY (s : Str) : Option (ℕ × ℕ × ℕ) :=
  match splitOnChar '-' s with
  | [mPart, dPart, yPart] =>
    match monthNum mPart with
    | none => none
    | some mo =>
      if isDigitStr dPart ∧ dPart.length ≤ 2 ∧ isDigitStr yPart ∧ yPart.length ≤ 4 then
        let d := digitsToNat dPart
        let y := digitsToNat yPart
        if 1 ≤ y ∧ 1 ≤ d ∧ d ≤ daysInMonth mo y then some (y, mo, d) else none
      else none
  | _ => none

/-- Sort key of `display_results.parse_date`, encoded as the natural
number `y * 10000 + m * 100 + d`; a key that fails to parse receives the
sentinel date `1900-01-01` (encoded `19000101`), exactly as the source's
`except ValueError: return datetime(1900, 1, 1)`. -/
def dateRank (k : Str) : ℕ :=
  match parseDateMDY k with
  | some (y, m, d) => y * 10000 + m * 100 + d
  | none => 19000101

/-- Sort key of one aggregated `(date, quantity)` entry. -/
def entryRank (p : Str × ℚ) : ℕ := dateRank p.1

/-- Comparison used by `sorted(..., key=lambda x: parse_date(x[0]))`. -/
def entryLE (a b : Str × ℚ) : Prop := entryRank a ≤ entryRank b

instance : DecidableRel entryLE :=
  fun a b => inferInstanceAs (Decidable (entryRank a ≤ entryRank b))

instance : IsTotal (Str × ℚ) entryLE := ⟨fun _ _ => Nat.le_total _ _⟩

instance : IsTrans (Str × ℚ) entryLE := ⟨fun _ _ _ => Nat.le_trans⟩

/-- Python's `sorted` is a stable sort by the parsed-date key; it is
modelled by a stable insertion sort, which produces the same output. -/
def sortEntriesByDate (d : List (Str × ℚ)) : List (Str × ℚ) :=
  List.insertionSort entryLE d

/-- Aggregate-and-sort pipeline of `display_results`: the aggregated
dictionary's entries in the order they are displayed. -/
def displayOrder (data : List SaleRecord) : List (Str × ℚ) :=
  sortEntriesByDate (aggregate_by_date data)

/-- Loop body of the `date_shares` aggregation in
`display_vested_results`: shares are parsed by
`float(shares.replace(",", "").replace("'", ""))`; a record whose shares
fail to parse is dropped (`except ValueError: pass`). -/
def vestedAggAux (acc : List (Str × ℚ)) : List VestedRecord → List (Str × ℚ)
  | [] => acc
  | r :: rs =>
    match parsePyFloat (removeChar '\'' (removeChar ',' r.shares)) with
    | none => vestedAggAux acc rs
    | some q => vestedAggAux (updateDict acc r.vestDate q) rs

/-- The `date_shares` dictionary of `display_vested_results`: shares
summed per vest date. -/
def aggregateVestedByDate (vs : List VestedRecord) : List (Str × ℚ) :=
  vestedAggAux [] vs

/-- Net-position label printed by `display_summary`. -/
inductive NetLabel where
  | remaining
  | oversold
deriving DecidableEq, Repr

/-- `display_summary` from `main.py`, reduced to its computed output: the
difference `(total_vested + total_purchased) - total_sold`, labelled
`remaining` and reported as-is when nonnegative, labelled `oversold` and
reported as its absolute value otherwise. -/
def display_summary (totalVested totalPurchased totalSold : ℚ) : NetLabel × ℚ :=
  let difference := (totalVested + totalPurchased) - totalSold
  if 0 ≤ difference then (NetLabel.remaining, difference)
  else (NetLabel.oversold, |difference|)

/-- Collaborator failures (a `pdfplumber` exception) are modelled by the
error side of `Except`, carrying the exception's message. -/
abbrev Err := Str

/-- The text-extraction collaborator's result for one document: either an
exception or the per-page text list. -/
abbrev PdfResult := Except Err (List Str)

/-- `extract_table_from_pdf` from `main.py`: on a collaborator exception
the `except` clause logs and re-raises, so the error propagates; otherwise
each page with nonempty text contributes its regex-extracted
transactions. -/
def extract_table_from_pdf (pdfResult : PdfResult) : Except Err (List SaleRecord) :=
  match pdfResult with
  | .error e => .error e
  | .ok pages =>
    .ok (List.flatten (pages.map (fun p =>
      if p.isEmpty then [] else extract_transactions_from_text p)))

/-- Page-text concatenation of `extract_vested_data`:
`all_text += text + "\n"` for each page with nonempty text. -/
def joinPagesText (pages : List Str) : Str :=
  pages.foldl (fun acc p => if p.isEmpty then acc else acc ++ p ++ ['\n']) []

/-- `extract_vested_data` from `main.py`: no local exception handler, so a
collaborator failure propagates; otherwise both section extractors run on
the concatenated text. -/
def extract_vested_data (pdfResult : PdfResult) :
    Except Err (List VestedRecord × List EsppRecord) :=
  match pdfResult with
  | .error e => .error e
  | .ok pages =>
    let allText := joinPagesText pages
    .ok (extract_vested_stocks_from_text allText, extract_espp_from_text allText)

/-- Total vested shares of `read_vested_data`:
`float(entry["Shares"].replace(",", "").replace("'", ""))` summed over the
records, dropping parse failures. -/
def sumVestedShares (vs : List VestedRecord) : ℚ :=
  (vs.filterMap (fun v =>
    parsePyFloat (removeChar '\'' (removeChar ',' v.shares)))).sum

/-- Total purchased shares of `read_vested_data`, summed the same way
over the ESPP records. -/
def sumPurchasedShares (es : List EsppRecord) : ℚ :=
  (es.filterMap (fun e =>
    parsePyFloat (removeChar '\'' (removeChar ',' e.purchasedShares)))).sum

/-- Total sold shares of `read_sold_shares`:
`float(transaction.get("Quantity", "0"))` summed over the transactions,
dropping parse failures. -/
def sumSoldShares (txs : List SaleRecord) : ℚ :=
  (txs.filterMap (fun t => parsePyFloat t.quantity)).sum

/-- `read_sold_shares` from `main.py`.  The whole body after the
file-existence check is wrapped in `try ... except Exception: return 0.0`,
so the function's result is always an `ok` value: a missing file, a
collaborator failure and an empty extraction all yield the `0.0`
sentinel.  The `Except` codomain records that no exception escapes. -/
def read_sold_shares (fileExists : Bool) (pdfResult : PdfResult) : Except Err ℚ :=
  if !fileExists then .ok 0
  else
    match extract_table_from_pdf pdfResult with
    | .error _ => .ok 0
    | .ok txs => if txs.isEmpty then .ok 0 else .ok (sumSoldShares txs)

/-- `read_vested_data` from `main.py`, handled the same way: the
`try ... except Exception: return 0.0, 0.0` clause converts every
collaborator failure into the `(0.0, 0.0)` sentinel. -/
def read_vested_data (fileExists : Bool) (pdfResult : PdfResult) :
    Except Err (ℚ × ℚ) :=
  if !fileExists then .ok (0, 0)
  else
    match extract_vested_data pdfResult with
    | .error _ => .ok (0, 0)
    | .ok (vs, es) =>
      if vs.isEmpty && es.isEmpty then .ok (0, 0)
      else .ok (sumVestedShares vs, sumPurchasedShares es)

/-- Section flag reached by the vested-stocks line loop after a list of
lines: `some flag` if the loop is still running, `none` if a line
containing `"ESPP"` executed `break`. -/
def vestedFlag : Bool → List Str → Option Bool
  | inV, [] => some inV
  | inV, l :: ls =>
    if isVestedMarker l then vestedFlag true ls
    else if containsSub ("ESPP".data) l then none
    else vestedFlag inV ls

theorem vestedScan_break (e : Str) (he : containsSub ("ESPP".data) e = true)
    (hm : isVestedMarker e = false) (b : Bool) (ls : List Str) :
    vestedScan b (e :: ls) = [] := by
  simp [vestedScan, hm, he]

theorem vestedScan_append (ls1 : List Str) :
    ∀ (b : Bool) (rest : List Str),
      vestedScan b (ls1 ++ rest) =
        (match vestedFlag b ls1 with
          | some b2 => vestedScan b ls1 ++ vestedScan b2 rest
          | none => vestedScan b ls1) := by
  induction ls1 with
  | nil =>
    intro b rest
    simp [vestedScan, vestedFlag]
  | cons l ls ih =>
    intro b rest
    simp only [List.cons_append]
    by_cases hm : isVestedMarker l = true
    · simp only [vestedScan, vestedFlag, hm, if_true]
      exact ih true rest
    · by_cases he : containsSub ("ESPP".data) l = true
      · simp [vestedScan, vestedFlag, hm, he]
      · by_cases hb : (b && !(pyStrip l).isEmpty) = true
        · by_cases hh : isVestedHeader l = true
          · simp only [vestedScan, vestedFlag, hm, he, hb, hh, if_true,
              if_false, Bool.false_eq_true, ite_false, ite_true]
            exact ih b rest
          · by_cases ht : isTotalLine l = true
            · simp only [vestedScan, vestedFlag, hm, he, hb, hh, ht, if_true,
                Bool.false_eq_true, ite_false, ite_true, reduceIte]
              exact ih b rest
            · cases hr : vestedRowRecord l with
              | none =>
                simp only [vestedScan, vestedFlag, hm, he, hb, hh, ht, hr,
                  Bool.false_eq_true, ite_false, ite_true, reduceIte]
                exact ih b rest
              | some r =>
                simp only [vestedScan, vestedFlag, hm, he, hb, hh, ht, hr,
                  Bool.false_eq_true, ite_false, ite_true, reduceIte]
                rw [ih b rest]
                cases hf : vestedFlag b ls <;> simp [hf]
        · simp only [vestedScan, vestedFlag, hm, he, hb, Bool.false_eq_true,
            ite_false, ite_true, reduceIte]
          exact ih b rest

theorem vestedScan_skip (l : Str) (h1 : containsSub ("ESPP".data) l = false)
    (h2 : isVestedHeader l = true ∨ isTotalLine l = true
      ∨ vestedRowRecord l = none ∨ (pyStrip l).isEmpty = true)
    (ls : List Str) :
    vestedScan true (l :: ls) = vestedScan true ls := by
  by_cases hm : isVestedMarker l = true
  · simp [vestedScan, hm]
  · by_cases hb : (pyStrip l).isEmpty = true
    · simp [vestedScan, hm, h1, hb]
    · by_cases hh : isVestedHeader l = true
      · simp [vestedScan, hm, h1, hb, hh]
      · by_cases ht : isTotalLine l = true
        · simp [vestedScan, hm, h1, hb, hh, ht]
        · have hr : vestedRowRecord l = none := by
            rcases h2 with h | h | h | h
            · exact absurd h hh
            · exact absurd h ht
            · exact h
            · exact absurd h hb
          simp [vestedScan, hm, h1, hb, hh, ht, hr]

theorem vestedScan_false_nil {ls : List Str}
    (h : ∀ l ∈ ls, isVestedMarker l = false) :
    vestedScan false ls = [] := by
  induction ls with
  | nil => rfl
  | cons l ls ih =>
    have hm := h l (List.mem_cons_self l ls)
    have ihh := ih (fun x hx => h x (List.mem_cons_of_mem _ hx))
    by_cases he : containsSub ("ESPP".data) l = true
    · simp [vestedScan, hm, he]
    · simp [vestedScan, hm, he, ihh]

theorem mem_of_startsWith {n : Str} :
    ∀ {h : Str}, startsWith n h = true → ∀ x ∈ n, x ∈ h := by
  induction n with
  | nil =>
    intro h _ x hx
    cases hx
  | cons p ps ih =>
    intro h hs x hx
    cases h with
    | nil => simp [startsWith] at hs
    | cons c cs =>
      simp only [startsWith, Bool.and_eq_true, decide_eq_true_eq] at hs
      obtain ⟨hpc, hrest⟩ := hs
      rcases List.mem_cons.mp hx with rfl | hx
      · exact hpc ▸ List.mem_cons_self _ _
      · exact List.mem_cons_of_mem _ (ih hrest x hx)

theorem mem_of_containsSub {n l : Str} (hc : containsSub n l = true) :
    ∀ x ∈ n, x ∈ l := by
  induction l with
  | nil =>
    intro x hx
    cases n with
    | nil => cases hx
    | cons a as => simp [containsSub, startsWith] at hc
  | cons c cs ih =>
    simp only [containsSub, Bool.or_eq_true] at hc
    rcases hc with hs | hc
    · exact mem_of_startsWith hs
    · intro x hx
      exact List.mem_cons_of_mem _ (ih hc x hx)

theorem mem_dropWhile_of_mem {p : Char → Bool} {l : Str} {x : Char}
    (hx : x ∈ l) (hpx : p x = false) : x ∈ l.dropWhile p := by
  induction l with
  | nil => cases hx
  | cons c cs ih =>
    by_cases hc : p c = true
    · rw [List.dropWhile_cons, if_pos hc]
      rcases List.mem_cons.mp hx with rfl | hx
      · exact absurd hc (by simp [hpx])
      · exact ih hx
    · rw [List.dropWhile_cons, if_neg hc]
      exact hx

theorem mem_pyStrip_of_mem {l : Str} {x : Char} (hx : x ∈ l)
    (hs : isSpaceChar x = false) : x ∈ pyStrip l := by
  unfold pyStrip
  apply List.mem_reverse.mpr
  apply mem_dropWhile_of_mem _ hs
  apply List.mem_reverse.mpr
  exact mem_dropWhile_of_mem hx hs

theorem not_containsSub_espp_of_totalLine {l : Str} (h : isTotalLine l = true) :
    containsSub ("ESPP".data) l = false := by
  cases hcs : containsSub ("ESPP".data) l with
  | false => rfl
  | true =>
    exfalso
    have hE : 'E' ∈ l := mem_of_containsSub hcs 'E' (by decide)
    have h1 : 'E' ∈ pyStrip l := mem_pyStrip_of_mem hE (by decide)
    have h2 : 'E' ∈ removeChar '.' (pyStrip l) :=
      List.mem_filter.mpr ⟨h1, by decide⟩
    have h3 : 'E' ∈ removeChar '\'' (removeChar '.' (pyStrip l)) :=
      List.mem_filter.mpr ⟨h2, by decide⟩
    have h4 : 'E' ∈ removeChar ' ' (removeChar '\'' (removeChar '.' (pyStrip l))) :=
      List.mem_filter.mpr ⟨h3, by decide⟩
    unfold isTotalLine at h
    simp only [isDigitStr, Bool.and_eq_true, List.all_eq_true] at h
    have := h.2 'E' h4
    simp at this

theorem vestedRowRecord_none_of_corrupt {l : Str}
    (h : (tokens l).length < 6
      ∨ (splitOnChar '.' ((tokens l).getD 2 [])).length ≠ 3) :
    vestedRowRecord l = none := by
  unfold vestedRowRecord
  by_cases h6 : 6 ≤ (tokens l).length
  · rw [dif_pos h6]
    rcases h with h | h
    · omega
    · have hg : (tokens l).get ⟨2, by omega⟩ = (tokens l).getD 2 [] := by
        rw [List.getD_eq_getElem _ _ (by omega)]
        simp
      rw [if_neg]
      simp only [hg, Bool.and_eq_true, decide_eq_true_eq]
      intro hcontra
      exact h hcontra.2
  · rw [dif_neg h6]

/-- The claimed noise predicate of the spec, modelled from the spec's
words for comparison with the source's `isTotalLine`: all characters
reduce to digits after stripping the thousands separators comma and
apostrophe, decimal points, and spaces. -/
def specTotalLine (l : Str) : Bool :=
  isDigitStr (removeChar ' '
    (removeChar '.' (removeChar '\'' (removeChar ',' (pyStrip l)))))

/-- Claim C2: on the four-line scenario-A input the vested-stocks
extractor returns exactly one record with vest date `15.03.2024` and
shares `150`, and aggregating that record list by vest date yields the
single entry mapping `15.03.2024` to the quantity 150. -/
theorem scenario_a_vested_extraction :
    extract_vested_stocks_from_text
        (("Vested Stocks 2024\nAward Date Award ID Date Price\n01.03.2022 AB123 15.03.2024 10.00 1500.00 150\nTotal 150").data)
      = [⟨"15.03.2024".data, "150".data⟩]
    ∧ aggregateVestedByDate [⟨"15.03.2024".data, "150".data⟩]
      = [("15.03.2024".data, (150 : ℚ))] := by
  constructor
  · decide
  · decide

/-- Claim C3: `display_summary` computes the net position
`(vested + purchased) - sold`; a nonnegative net is labelled `remaining`
and reported as-is, a negative net is labelled `oversold` and reported as
its absolute value; in particular the two concrete scenarios of the
spec. -/
theorem summary_net_position (v p s : ℚ) :
    (0 ≤ (v + p) - s →
      display_summary v p s = (NetLabel.remaining, (v + p) - s))
    ∧ ((v + p) - s < 0 →
      display_summary v p s = (NetLabel.oversold, |(v + p) - s|))
    ∧ display_summary 100 20 90 = (NetLabel.remaining, 30)
    ∧ display_summary 50 0 90 = (NetLabel.oversold, 40) := by
  refine ⟨fun h => ?_, fun h => ?_, by decide, by decide⟩
  · simp [display_summary, h]
  · rw [display_summary, if_neg (not_le.mpr h)]

/-- Witness for claim C3 at the spec's concrete inputs. -/
theorem summary_net_position_witness :
    display_summary 100 20 90 = (NetLabel.remaining, (100 + 20 : ℚ) - 90)
    ∧ display_summary 50 0 90 = (NetLabel.oversold, |(50 + 0 : ℚ) - 90|) :=
  ⟨(summary_net_position 100 20 90).1 (by norm_num),
   (summary_net_position 50 0 90).2.1 (by norm_num)⟩

/-- Counterexample to claim C4: a collaborator failure is not propagated
out of `read_sold_shares` or `read_vested_data` — both catch every
exception and return the zero sentinel. -/
theorem collaborator_failure_masked_cex :
    read_sold_shares true (Except.error ("boom".data)) = Except.ok 0
    ∧ read_vested_data true (Except.error ("boom".data)) = Except.ok (0, 0)
    ∧ (Except.ok (0 : ℚ) : Except Err ℚ) ≠ Except.error ("boom".data) := by
  refine ⟨rfl, rfl, fun h => ?_⟩
  exact Except.noConfusion h

/-- Claim C4 as amended: a collaborator failure propagates unmodified out
of `extract_table_from_pdf` and `extract_vested_data`, but
`read_sold_shares` and `read_vested_data` catch every exception and
convert it into the zero-result sentinel. -/
theorem collaborator_failure_handling (e : Err) :
    extract_table_from_pdf (Except.error e) = Except.error e
    ∧ extract_vested_data (Except.error e) = Except.error e
    ∧ read_sold_shares true (Except.error e) = Except.ok 0
    ∧ read_vested_data true (Except.error e) = Except.ok (0, 0) :=
  ⟨rfl, rfl, rfl, rfl⟩

/-- Counterexample to claim C5: the corrupted data row `x ESPP` has fewer
than six whitespace tokens, yet inserting it inside a well-formed
vested-stocks section drops the valid row after it, because the line
contains the substring `ESPP` and stops the scan. -/
theorem vested_malformed_row_cex :
    extract_vested_stocks_from_text
        (("Vested Stocks 2024\n01.03.2022 AB123 15.03.2024 10.00 1500.00 150\nx ESPP\n01.03.2022 AB123 16.03.2024 10.00 1500.00 150").data)
      = [⟨"15.03.2024".data, "150".data⟩]
    ∧ extract_vested_stocks_from_text
        (("Vested Stocks 2024\n01.03.2022 AB123 15.03.2024 10.00 1500.00 150\n01.03.2022 AB123 16.03.2024 10.00 1500.00 150").data)
      = [⟨"15.03.2024".data, "150".data⟩, ⟨"16.03.2024".data, "150".data⟩]
    ∧ (tokens ("x ESPP".data)).length < 6 := by
  refine ⟨by decide, by decide, by decide⟩

/-- Claim C5 as amended: inserting one corrupted line (fewer than six
whitespace tokens, or a date field that is not a dot-separated three-part
string) that does not contain the substring `ESPP` anywhere inside an
active vested-stocks section changes nothing: the records of the valid
rows before and after it are extracted unchanged and the corrupted line
alone produces no record.  The scan is a total function, so no exception
can be raised. -/
theorem vested_malformed_row_tolerance (ls1 ls2 : List Str) (c : Str)
    (hsec : vestedFlag false ls1 = some true)
    (hesp : containsSub ("ESPP".data) c = false)
    (hcor : (tokens c).length < 6
      ∨ (splitOnChar '.' ((tokens c).getD 2 [])).length ≠ 3) :
    vestedScan false (ls1 ++ c :: ls2) = vestedScan false (ls1 ++ ls2)
    ∧ vestedScan true [c] = [] := by
  have hnone := vestedRowRecord_none_of_corrupt hcor
  have hskip := vestedScan_skip c hesp (Or.inr (Or.inr (Or.inl hnone)))
  refine ⟨?_, hskip []⟩
  rw [vestedScan_append ls1 false (c :: ls2), vestedScan_append ls1 false ls2,
    hsec]
  simp only [hskip ls2]

/-- Witness for claim C5 on a concrete section with a two-token corrupted
line. -/
theorem vested_malformed_row_tolerance_witness :
    vestedScan false (["Vested Stocks 2024".data]
        ++ ("x y".data) :: ["01.03.2022 AB123 15.03.2024 10.00 1500.00 150".data])
      = vestedScan false (["Vested Stocks 2024".data]
        ++ ["01.03.2022 AB123 15.03.2024 10.00 1500.00 150".data])
    ∧ vestedScan true ["x y".data] = [] :=
  vested_malformed_row_tolerance _ _ _ (by decide) (by decide)
    (Or.inl (by decide))

/-- Counterexample to claim C6: the key `Jan-01-1899` parses to a date
earlier than the `1900-01-01` sentinel, so it is displayed before the
unparseable key `zzz` — an unparseable key does not always come first. -/
theorem display_order_cex :
    displayOrder [⟨"zzz".data, "2".data⟩, ⟨"Jan-01-1899".data, "1".data⟩]
      = [("Jan-01-1899".data, (1 : ℚ)), ("zzz".data, (2 : ℚ))]
    ∧ parseDateMDY ("Jan-01-1899".data) = some (1899, 1, 1)
    ∧ parseDateMDY ("zzz".data) = none := by
  refine ⟨by decide, by decide, by decide⟩

/-- Claim C6 as amended: the displayed aggregate entries are sorted by
the parsed-date rank, where a key that fails to parse receives the
sentinel date `1900-01-01`; hence entries with earlier parseable dates
precede later ones, and unparseable keys precede exactly those parseable
keys whose date is after the sentinel (stable order resolves ties). -/
theorem display_order_chronological (data : List SaleRecord) :
    (∀ i j : Fin (displayOrder data).length, (i : ℕ) < (j : ℕ) →
      entryRank ((displayOrder data).get i) ≤ entryRank ((displayOrder data).get j))
    ∧ (∀ k : Str, parseDateMDY k = none → dateRank k = 19000101) := by
  constructor
  · have hs : List.Sorted entryLE (displayOrder data) :=
      List.sorted_insertionSort entryLE (aggregate_by_date data)
    intro i j hij
    exact List.pairwise_iff_get.mp hs i j hij
  · intro k hk
    simp [dateRank, hk]

/-- Witness for claim C6 on a two-entry aggregate. -/
theorem display_order_chronological_witness :
    entryRank ((displayOrder [⟨"Feb-01-2024".data, "2".data⟩,
        ⟨"Jan-16-2024".data, "1".data⟩]).get ⟨0, by decide⟩)
      ≤ entryRank ((displayOrder [⟨"Feb-01-2024".data, "2".data⟩,
        ⟨"Jan-16-2024".data, "1".data⟩]).get ⟨1, by decide⟩)
    ∧ dateRank ("zz".data) = 19000101 :=
  ⟨(display_order_chronological _).1 ⟨0, by decide⟩ ⟨1, by decide⟩
      (by decide),
   (display_order_chronological ([] : List SaleRecord)).2 ("zz".data)
     (by decide)⟩

/-- Counterexample to claim C7: a vested-stocks start marker appearing
while the ESPP section is active does not end that section — a data line
after the marker still contributes an ESPP record (the section only ends
on `Total amount` / `Page` lines). -/
theorem espp_not_ended_by_vested_marker_cex :
    extract_espp_from_text
        (("ESPP (Employee Stock Purchase Plan)\nVested Stocks 2024\n1 10.5").data)
      = [⟨"1".data, "10.5".data⟩]
    ∧ extract_espp_from_text
        (("ESPP (Employee Stock Purchase Plan)\nVested Stocks 2024").data) = []
    ∧ isVestedMarker ("Vested Stocks 2024".data) = true := by
  refine ⟨by decide, by decide, by decide⟩

/-- Claim C7 as amended: the implicit section end works in one direction
only.  A line containing `ESPP` (in particular, the ESPP section's start
marker) that is not itself a vested-stocks marker stops the vested-stocks
scan, so no line at or after it contributes a vested record; but a
vested-stocks start marker inside an active ESPP section is simply
skipped, and scanning of the ESPP section continues. -/
theorem section_transition_asymmetry (e : Str)
    (he : containsSub ("ESPP".data) e = true)
    (hm : isVestedMarker e = false) :
    (∀ ls1 ls2 : List Str,
      vestedScan false (ls1 ++ e :: ls2) = vestedScan false ls1)
    ∧ (∀ ls : List Str,
      esppScan true (("Vested Stocks 2024".data) :: ls) = esppScan true ls) := by
  constructor
  · intro ls1 ls2
    rw [vestedScan_append ls1 false (e :: ls2)]
    cases hf : vestedFlag false ls1 with
    | none => rfl
    | some b2 => simp [vestedScan_break e he hm b2 ls2]
  · intro ls
    rfl

/-- Witness for claim C7 with the ESPP section marker as the breaking
line. -/
theorem section_transition_asymmetry_witness :
    vestedScan false (["Vested Stocks 2024".data]
        ++ ("ESPP (Employee Stock Purchase Plan)".data)
          :: ["01.03.2022 AB123 15.03.2024 10.00 1500.00 150".data])
      = vestedScan false ["Vested Stocks 2024".data]
    ∧ esppScan true [("Vested Stocks 2024".data)] = esppScan true [] :=
  ⟨(section_transition_asymmetry _ (by decide) (by decide)).1 _ _,
   (section_transition_asymmetry ("ESPP".data) (by decide) (by decide)).2 []⟩

/-- Claim C8: the sale-transaction extractor turns the scenario-C line
into the record with sale date `Jan-16-2024` and quantity `3.0000`, both
as the only line of a text and as one line among arbitrary others. -/
theorem scenario_c_sale_extraction :
    extract_transactions_from_text
        (("Jan-16-2024 Jun-01-2020 3.0000 $549.75 $1,175.99 + $626.24 USD DO").data)
      = [⟨"Jan-16-2024".data, "3.0000".data⟩]
    ∧ ∀ ls1 ls2 : List Str,
        extractTransactionLines (ls1
            ++ (("Jan-16-2024 Jun-01-2020 3.0000 $549.75 $1,175.99 + $626.24 USD DO").data) :: ls2)
          = extractTransactionLines ls1
            ++ ⟨"Jan-16-2024".data, "3.0000".data⟩ :: extractTransactionLines ls2 := by
  constructor
  · decide
  · intro ls1 ls2
    have h : saleLineRecord
        (("Jan-16-2024 Jun-01-2020 3.0000 $549.75 $1,175.99 + $626.24 USD DO").data)
        = some ⟨"Jan-16-2024".data, "3.0000".data⟩ := by decide
    simp [extractTransactionLines, List.filterMap_append, List.filterMap_cons, h]

/-- Counterexample to claim C9: the line `1,1 2 3.4.5 4 5 6` reduces to
digits after stripping commas, apostrophes, decimal points and spaces
(the spec's noise test), but the source never strips commas, so the line
is not recognised as a total line and contributes a record. -/
theorem vested_total_line_cex :
    specTotalLine (("1,1 2 3.4.5 4 5 6").data) = true
    ∧ isTotalLine (("1,1 2 3.4.5 4 5 6").data) = false
    ∧ extract_vested_stocks_from_text
        (("Vested Stocks 2024\n1,1 2 3.4.5 4 5 6").data)
      = [⟨"3.4.5".data, "6".data⟩] := by
  refine ⟨by decide, by decide, by decide⟩

/-- Claim C9 as amended: inside an active vested-stocks section, every
line whose characters reduce to digits after stripping decimal points,
apostrophes and spaces — commas are not stripped — is skipped and
contributes no record. -/
theorem vested_total_line_skipped (c : Str) (h : isTotalLine c = true)
    (ls : List Str) :
    vestedScan true (c :: ls) = vestedScan true ls :=
  vestedScan_skip c (not_containsSub_espp_of_totalLine h)
    (Or.inr (Or.inl h)) ls

/-- Witness for claim C9 on a concrete currency-total line. -/
theorem vested_total_line_skipped_witness :
    vestedScan true (("1 500.00".data) :: []) = vestedScan true [] :=
  vested_total_line_skipped _ (by decide) []

/-- Counterexample to claim C10: a line containing both the vested-stocks
start marker and the substring `ESPP` is consumed as the start marker, so
the extractor does not stop at the first line containing `ESPP` and still
extracts the following data row. -/
theorem vested_scan_espp_marker_cex :
    extract_vested_stocks_from_text
        (("Vested Stocks 2024 ESPP\n01.03.2022 AB123 15.03.2024 10.00 1500.00 150").data)
      = [⟨"15.03.2024".data, "150".data⟩]
    ∧ containsSub ("ESPP".data) (("Vested Stocks 2024 ESPP").data) = true := by
  refine ⟨by decide, by decide⟩

/-- Claim C10 as amended: the vested-stocks extractor stops at the first
line that contains the substring `ESPP` and is not itself a vested-stocks
start marker, regardless of whether the section has started; if such a
line precedes every start marker, the extractor returns the empty list
even when a well-formed vested-stocks section follows. -/
theorem vested_scan_espp_before_marker (e : Str)
    (he : containsSub ("ESPP".data) e = true)
    (hm : isVestedMarker e = false)
    (ls1 ls2 : List Str) (hpre : ∀ l ∈ ls1, isVestedMarker l = false) :
    vestedScan false (ls1 ++ e :: ls2) = [] := by
  rw [vestedScan_append ls1 false (e :: ls2)]
  cases hf : vestedFlag false ls1 with
  | none => exact vestedScan_false_nil hpre
  | some b2 =>
    simp [vestedScan_break e he hm b2 ls2, vestedScan_false_nil hpre]

/-- Witness for claim C10: an ESPP line before the start marker hides the
well-formed section that follows. -/
theorem vested_scan_espp_before_marker_witness :
    vestedScan false (["some text".data]
        ++ ("ESPP data follows".data)
          :: ["Vested Stocks 2024".data,
              "01.03.2022 AB123 15.03.2024 10.00 1500.00 150".data]) = [] :=
  vested_scan_espp_before_marker _ (by decide) (by decide) _ _ (by decide)

end TaxForm
